import Mathlib

/-!
Shallow embedding of the tic-tac-toe multiplayer server
(src/server/src/index.ts).  The server keeps a map from upper-cased room
keys to mutable Room records and mutates them in five socket handlers:
create-room, join-room, make-move, reset-game and disconnect.  Each
handler is translated here as a pure function from the room map (an
association list, mirroring the insertion-ordered JS Map) to the new map
together with the list of emitted events.
-/

namespace TicTacToe

/-- The two marks a player can hold, mirroring the TS union of the two
symbol literals. -/
inductive Symbol where
  | X
  | O
deriving DecidableEq, Repr

/-- String form of a symbol, as stored into the board cells. -/
def Symbol.toStr : Symbol → String
  | Symbol.X => "X"
  | Symbol.O => "O"

/-- Player record: socket id, display name, assigned symbol. -/
structure Player where
  id : String
  name : String
  symbol : Symbol
deriving DecidableEq, Repr

/-- Room status union: waiting, playing or ended. -/
inductive Status where
  | waiting
  | playing
  | ended
deriving DecidableEq, Repr

/-- Room record, field for field the TS Room interface.  The board is the
9-cell array of string-or-null; scores is the JS object mapping player
ids to counts (insertion-ordered association list); resetVotes is the
array of ids that voted to reset. -/
structure Room where
  name : String
  players : List Player
  board : List (Option String)
  currentPlayerIndex : Nat
  password : Option String
  isPrivate : Bool
  status : Status
  winner : Option String
  scores : List (String × Nat)
  resetVotes : List String
deriving DecidableEq, Repr

/-- Read a score with the JS default: scores[id] || 0. -/
def getScoreD (scores : List (String × Nat)) (id : String) : Nat :=
  ((scores.find? (fun e => e.1 == id)).map (fun e => e.2)).getD 0

/-- JS object assignment scores[id] = v: overwrite when the key is
present, otherwise append the new key (JS objects keep insertion
order). -/
def setScore (scores : List (String × Nat)) (id : String) (v : Nat) :
    List (String × Nat) :=
  if scores.any (fun e => e.1 == id) then
    scores.map (fun e => if e.1 == id then (e.1, v) else e)
  else scores ++ [(id, v)]

/-- The server's room store: a JS Map from upper-cased keys to rooms,
modelled as an insertion-ordered association list. -/
abbrev Rooms := List (String × Room)

/-- Map lookup rooms.get(key). -/
def lookupRoom (rooms : Rooms) (key : String) : Option Room :=
  (rooms.find? (fun e => e.1 == key)).map (fun e => e.2)

/-- Replace the room stored under an existing key (in-place mutation of
the fetched record in JS). -/
def updateRoom (rooms : Rooms) (key : String) (room : Room) : Rooms :=
  rooms.map (fun e => if e.1 == key then (e.1, room) else e)

/-- One entry of the public room directory built by getRoomList. -/
structure RoomSummary where
  name : String
  players : Nat
  isPrivate : Bool
  status : Status
deriving DecidableEq, Repr

/-- getRoomList: summary of every room (name, player count, privacy,
status). -/
def getRoomList (rooms : Rooms) : List RoomSummary :=
  rooms.map (fun e =>
    { name := e.2.name
      players := e.2.players.length
      isPrivate := e.2.isPrivate
      status := e.2.status })

/-- Outbound socket emissions relevant to the handlers: error messages,
the room-created and room-updated snapshots (each carrying the full Room
record exactly as the code passes it to emit), and the room-list
broadcast. -/
inductive Event where
  | errorEv (sockId : String) (msg : String)
  | roomCreated (sockId : String) (payload : Room)
  | roomUpdated (roomKey : String) (payload : Room)
  | roomListEv (entries : List RoomSummary)
deriving DecidableEq, Repr

/-- The eight winning line index triples, in source order. -/
def lines : List (Nat × Nat × Nat) :=
  [(0, 1, 2), (3, 4, 5), (6, 7, 8),
   (0, 3, 6), (1, 4, 7), (2, 5, 8),
   (0, 4, 8), (2, 4, 6)]

/-- One iteration of the checkWinner loop: board[a] is truthy (non-null
and non-empty in JS) and equals board[b] and board[c]. -/
def lineWin (board : List (Option String)) (t : Nat × Nat × Nat) : Bool :=
  match board.getD t.1 none with
  | none => false
  | some s =>
      s != "" && board.getD t.2.1 none == some s && board.getD t.2.2 none == some s

/-- checkWinner: the first winning line's symbol, else the draw marker
when every cell is non-null, else null. -/
def checkWinner (board : List (Option String)) : Option String :=
  match lines.find? (fun t => lineWin board t) with
  | some t => board.getD t.1 none
  | none => if board.all (fun c => c.isSome) then some "Draw" else none

/-- The body of the make-move handler acting on one room: the boolean
records whether the move passed every guard (exactly when the handler
reaches the board write and the final emit).  Guards, in source order:
status must be playing; the mover must be the player at
currentPlayerIndex; the index must be in 0..8; the target cell must be
empty.  On success the symbol is written, the winner check runs, and
either the game ends (recording the winner's name and bumping their
score) or the turn toggles. -/
def applyMove (room : Room) (sockId : String) (index : Int) : Room × Bool :=
  if room.status ≠ Status.playing then (room, false)
  else
    match room.players.get? room.currentPlayerIndex with
    | none => (room, false)
    | some currentPlayer =>
      if currentPlayer.id ≠ sockId then (room, false)
      else if index < 0 ∨ index > 8 then (room, false)
      else if room.board.getD index.toNat none ≠ none then (room, false)
      else
        let board' := room.board.set index.toNat (some currentPlayer.symbol.toStr)
        match checkWinner board' with
        | some w =>
          if w == "Draw" then
            ({ room with
                board := board'
                status := Status.ended
                winner := some "Draw" }, true)
          else
            ({ room with
                board := board'
                status := Status.ended
                winner := some currentPlayer.name
                scores := setScore room.scores currentPlayer.id
                  (getScoreD room.scores currentPlayer.id + 1) }, true)
        | none =>
          ({ room with
              board := board'
              currentPlayerIndex := 1 - room.currentPlayerIndex }, true)

/-- create-room handler: reject a taken key, else insert the fresh room
(creator is sole player with symbol X; password stored only when
private) and emit the snapshot plus the directory. -/
def createRoom (rooms : Rooms) (sockId roomName playerName : String)
    (isPrivate : Bool) (password : Option String) : Rooms × List Event :=
  let roomId := roomName.toUpper
  if (lookupRoom rooms roomId).isSome then
    (rooms, [Event.errorEv sockId "Room ID already exists"])
  else
    let room : Room :=
      { name := roomName
        players := [{ id := sockId, name := playerName, symbol := Symbol.X }]
        board := List.replicate 9 none
        currentPlayerIndex := 0
        password := if isPrivate then password else none
        isPrivate := isPrivate
        status := Status.waiting
        winner := none
        scores := [(sockId, 0)]
        resetVotes := [] }
    let rooms' := rooms ++ [(roomId, room)]
    (rooms', [Event.roomCreated sockId room, Event.roomListEv (getRoomList rooms')])

/-- join-room handler: unknown key, full room and (for non-link joins to
private rooms) a password mismatch are rejected with the corresponding
error strings; otherwise the player is appended (symbol X only if the
room were empty, otherwise O), their score entry initialised, status
flipped to playing at two players, and the snapshot plus directory
emitted. -/
def joinRoom (rooms : Rooms) (sockId roomId playerName : String)
    (password : Option String) (isLinkJoin : Bool) : Rooms × List Event :=
  let key := roomId.toUpper
  match lookupRoom rooms key with
  | none => (rooms, [Event.errorEv sockId "Room ID not found"])
  | some room =>
    if 2 ≤ room.players.length then
      (rooms, [Event.errorEv sockId "Room is full"])
    else if isLinkJoin = false ∧ room.isPrivate = true ∧ room.password ≠ password then
      (rooms, [Event.errorEv sockId "Incorrect password"])
    else
      let player : Player :=
        { id := sockId, name := playerName
          symbol := if room.players.length == 0 then Symbol.X else Symbol.O }
      let joined : Room :=
        { room with players := room.players ++ [player]
                    scores := setScore room.scores sockId 0 }
      let room' : Room :=
        if joined.players.length == 2 then { joined with status := Status.playing }
        else joined
      let rooms' := updateRoom rooms key room'
      (rooms', [Event.roomUpdated key room', Event.roomListEv (getRoomList rooms')])

/-- make-move handler: look the room up; when every guard passes, store
the updated room and emit its snapshot; otherwise the handler returns
early with no emission. -/
def makeMove (rooms : Rooms) (sockId roomId : String) (index : Int) :
    Rooms × List Event :=
  let key := roomId.toUpper
  match lookupRoom rooms key with
  | none => (rooms, [])
  | some room =>
    match applyMove room sockId index with
    | (_, false) => (rooms, [])
    | (room', true) =>
      (updateRoom rooms key room', [Event.roomUpdated key room'])

/-- reset-game body on one room: record the vote (idempotently), and
when the votes reach the player count clear the board, set status back
to playing, reset the turn pointer, clear the winner and the votes. -/
def resetRoomVote (room : Room) (sockId : String) : Room :=
  let votes :=
    if room.resetVotes.contains sockId then room.resetVotes
    else room.resetVotes ++ [sockId]
  if room.players.length ≤ votes.length then
    { room with board := List.replicate 9 none
                status := Status.playing
                currentPlayerIndex := 0
                winner := none
                resetVotes := [] }
  else { room with resetVotes := votes }

/-- reset-game handler: no-op when the key is unknown, otherwise apply
the vote and emit the (possibly reset) snapshot unconditionally. -/
def resetGame (rooms : Rooms) (sockId roomId : String) : Rooms × List Event :=
  let key := roomId.toUpper
  match lookupRoom rooms key with
  | none => (rooms, [])
  | some room =>
    let room' := resetRoomVote room sockId
    (updateRoom rooms key room', [Event.roomUpdated key room'])

/-- disconnect body on one room: when the socket is a member, splice out
the first matching player; an emptied room is deleted (none); otherwise
status returns to waiting, the board is cleared and the winner cleared
(currentPlayerIndex, scores and resetVotes are untouched). -/
def departRoom (room : Room) (sockId : String) : Option Room :=
  if room.players.any (fun p => p.id == sockId) then
    let players' := room.players.eraseP (fun p => p.id == sockId)
    if players'.isEmpty then none
    else
      some { room with players := players'
                       status := Status.waiting
                       board := List.replicate 9 none
                       winner := none }
  else some room

/-- disconnect handler: run the departure over every room, dropping the
emptied ones, emitting a snapshot to each surviving room that lost a
member, and finally broadcasting the directory. -/
def disconnect (rooms : Rooms) (sockId : String) : Rooms × List Event :=
  let rooms' := rooms.filterMap (fun e =>
    (departRoom e.2 sockId).map (fun r => (e.1, r)))
  let updates := rooms.filterMap (fun e =>
    if e.2.players.any (fun p => p.id == sockId) then
      (departRoom e.2 sockId).map (fun r => Event.roomUpdated e.1 r)
    else none)
  (rooms', updates ++ [Event.roomListEv (getRoomList rooms')])

/-- One client request, for building event traces. -/
inductive Op where
  | create (sockId roomName playerName : String) (isPrivate : Bool)
      (password : Option String)
  | join (sockId roomId playerName : String) (password : Option String)
      (isLinkJoin : Bool)
  | move (sockId roomId : String) (index : Int)
  | vote (sockId roomId : String)
  | leave (sockId : String)

/-- Dispatch one request to its handler, keeping the resulting store. -/
def applyOp (rooms : Rooms) : Op → Rooms
  | Op.create s rn pn ip pw => (createRoom rooms s rn pn ip pw).1
  | Op.join s rid pn pw lj => (joinRoom rooms s rid pn pw lj).1
  | Op.move s rid i => (makeMove rooms s rid i).1
  | Op.vote s rid => (resetGame rooms s rid).1
  | Op.leave s => (disconnect rooms s).1

/-- Run a trace of requests against the initially empty store. -/
def run (ops : List Op) : Rooms := ops.foldl applyOp []

/-- Password field of a snapshot event, when the event is a snapshot. -/
def eventPassword : Event → Option (Option String)
  | Event.roomCreated _ payload => some payload.password
  | Event.roomUpdated _ payload => some payload.password
  | _ => none

/-! Helper lemmas about the embedded operations. -/

/-- An out-of-default getD result is an element of the list. -/
lemma getD_mem_of_ne {α : Type} (l : List α) (n : Nat) (d : α)
    (h : l.getD n d ≠ d) : l.getD n d ∈ l := by
  rw [List.getD_eq_getElem?_getD] at h ⊢
  cases hg : l[n]? with
  | none => rw [hg] at h; simp at h
  | some x => simpa using List.getElem?_mem hg

/-- When some line is won on a board whose cells only hold the two player
symbols, checkWinner reports a symbol distinct from the draw marker. -/
lemma checkWinner_of_win (b : List (Option String))
    (hwf : ∀ c ∈ b, c = none ∨ c = some "X" ∨ c = some "O")
    (hex : ∃ t ∈ lines, lineWin b t = true) :
    ∃ s, checkWinner b = some s ∧ s ≠ "Draw" := by
  unfold checkWinner
  cases hf : lines.find? (fun t => lineWin b t) with
  | none =>
    obtain ⟨t, ht, hw⟩ := hex
    have := List.find?_eq_none.mp hf t ht
    simp [hw] at this
  | some t0 =>
    have hw0 : lineWin b t0 = true := List.find?_some hf
    unfold lineWin at hw0
    cases hg : b.getD t0.1 none with
    | none => rw [hg] at hw0; simp at hw0
    | some s =>
      refine ⟨s, by show b.getD t0.1 none = some s; exact hg, ?_⟩
      have hmem : b.getD t0.1 none ∈ b := getD_mem_of_ne _ _ _ (by rw [hg]; simp)
      rw [hg] at hmem
      rcases hwf _ hmem with h | h | h
      · simp at h
      · rw [Option.some_inj.mp h]; decide
      · rw [Option.some_inj.mp h]; decide

/-- With no winning line and a full board, checkWinner reports a draw. -/
lemma checkWinner_draw (b : List (Option String))
    (hnw : ∀ t ∈ lines, lineWin b t = false)
    (hfull : b.all (fun c => c.isSome) = true) :
    checkWinner b = some "Draw" := by
  unfold checkWinner
  rw [List.find?_eq_none.mpr (fun t ht => by simp [hnw t ht])]
  simp [hfull]

/-- With no winning line and an unfilled board, checkWinner reports
nothing. -/
lemma checkWinner_undecided (b : List (Option String))
    (hnw : ∀ t ∈ lines, lineWin b t = false)
    (hnfull : b.all (fun c => c.isSome) = false) :
    checkWinner b = none := by
  unfold checkWinner
  rw [List.find?_eq_none.mpr (fun t ht => by simp [hnw t ht])]
  simp [hnfull]

/-- Overwriting a present key makes getScoreD read the new value. -/
lemma getScoreD_map_set (sc : List (String × Nat)) (id : String) (v : Nat)
    (h : sc.any (fun e => e.1 == id) = true) :
    getScoreD (sc.map (fun e => if e.1 == id then (e.1, v) else e)) id = v := by
  induction sc with
  | nil => simp at h
  | cons e tl ih =>
    by_cases he : (e.1 == id) = true
    · unfold getScoreD
      rw [List.map_cons, if_pos he]
      have hfind :
          List.find? (fun e => e.1 == id)
            ((e.1, v) :: tl.map (fun e => if e.1 == id then (e.1, v) else e)) =
          some (e.1, v) := List.find?_cons_of_pos _ he
      rw [hfind]
      simp
    · unfold getScoreD
      rw [List.map_cons, if_neg he]
      have hfind :
          List.find? (fun e => e.1 == id)
            (e :: tl.map (fun e => if e.1 == id then (e.1, v) else e)) =
          List.find? (fun e => e.1 == id)
            (tl.map (fun e => if e.1 == id then (e.1, v) else e)) :=
        List.find?_cons_of_neg _ he
      rw [hfind]
      have h' : tl.any (fun e => e.1 == id) = true := by
        rcases List.any_eq_true.mp h with ⟨x, hx, hpx⟩
        cases List.mem_cons.mp hx with
        | inl hxe => exact absurd (hxe ▸ hpx) he
        | inr hxt => exact List.any_eq_true.mpr ⟨x, hxt, hpx⟩
      exact ih h'

/-- Appending an absent key makes getScoreD read the appended value. -/
lemma getScoreD_append_new (sc : List (String × Nat)) (id : String) (v : Nat)
    (h : sc.any (fun e => e.1 == id) = false) :
    getScoreD (sc ++ [(id, v)]) id = v := by
  induction sc with
  | nil => simp [getScoreD]
  | cons e tl ih =>
    have he : ((e.1 == id) = false) ∧ tl.any (fun e => e.1 == id) = false := by
      constructor
      · by_contra hc
        have : (e.1 == id) = true := by revert hc; cases e.1 == id <;> simp
        exact absurd (List.any_eq_true.mpr ⟨e, List.mem_cons_self e tl, this⟩)
          (by rw [h]; simp)
      · by_contra hc
        have : tl.any (fun e => e.1 == id) = true := by
          revert hc; cases tl.any (fun e => e.1 == id) <;> simp
        rcases List.any_eq_true.mp this with ⟨x, hx, hpx⟩
        exact absurd (List.any_eq_true.mpr ⟨x, List.mem_cons_of_mem e hx, hpx⟩)
          (by rw [h]; simp)
    unfold getScoreD
    rw [List.cons_append]
    have hfind :
        List.find? (fun e => e.1 == id) (e :: (tl ++ [(id, v)])) =
        List.find? (fun e => e.1 == id) (tl ++ [(id, v)]) :=
      List.find?_cons_of_neg _ (by simp [he.1])
    rw [hfind]
    exact ih he.2

/-- setScore followed by getScoreD on the same key yields the stored
value. -/
lemma getScoreD_setScore (sc : List (String × Nat)) (id : String) (v : Nat) :
    getScoreD (setScore sc id v) id = v := by
  unfold setScore
  by_cases h : sc.any (fun e => e.1 == id) = true
  · rw [if_pos h]; exact getScoreD_map_set sc id v h
  · rw [if_neg h]
    exact getScoreD_append_new sc id v (by revert h; cases sc.any (fun e => e.1 == id) <;> simp)

/-- Looking up a freshly appended key when it was absent before. -/
lemma lookupRoom_append_self (rooms : Rooms) (key : String) (room : Room)
    (h : lookupRoom rooms key = none) :
    lookupRoom (rooms ++ [(key, room)]) key = some room := by
  unfold lookupRoom at h ⊢
  have h0 : rooms.find? (fun e => e.1 == key) = none := by
    cases hf : rooms.find? (fun e => e.1 == key) with
    | none => rfl
    | some e => rw [hf] at h; simp at h
  rw [List.find?_append, h0]
  simp

/-- Lookup after updateRoom: the updated key reads the new room (when
present before), every other key is untouched. -/
lemma lookupRoom_update (rooms : Rooms) (key : String) (v : Room) (k : String) :
    lookupRoom (updateRoom rooms key v) k =
      if k = key then (lookupRoom rooms k).map (fun _ => v)
      else lookupRoom rooms k := by
  induction rooms with
  | nil =>
    unfold lookupRoom updateRoom
    by_cases h : k = key <;> simp [h]
  | cons e tl ih =>
    unfold lookupRoom updateRoom at ih ⊢
    rw [List.map_cons]
    by_cases h1 : (e.1 == key) = true
    · rw [if_pos h1]
      by_cases h2 : (e.1 == k) = true
      · have hk : k = key := by rw [← eq_of_beq h2, eq_of_beq h1]
        have hf1 :
            List.find? (fun e => e.1 == k)
              ((e.1, v) :: tl.map (fun e => if e.1 == key then (e.1, v) else e)) =
            some (e.1, v) := List.find?_cons_of_pos _ h2
        have hf2 : List.find? (fun e => e.1 == k) (e :: tl) = some e :=
          List.find?_cons_of_pos _ h2
        rw [hf1, hf2, if_pos hk]
        simp
      · have hk : k ≠ key := fun hkk => h2 (by rw [hkk, ← eq_of_beq h1]; simp)
        have hf1 :
            List.find? (fun e => e.1 == k)
              ((e.1, v) :: tl.map (fun e => if e.1 == key then (e.1, v) else e)) =
            List.find? (fun e => e.1 == k)
              (tl.map (fun e => if e.1 == key then (e.1, v) else e)) :=
          List.find?_cons_of_neg _ h2
        have hf2 :
            List.find? (fun e => e.1 == k) (e :: tl) =
            List.find? (fun e => e.1 == k) tl := List.find?_cons_of_neg _ h2
        rw [hf1, hf2, if_neg hk]
        rw [ih, if_neg hk]
    · rw [if_neg h1]
      by_cases h2 : (e.1 == k) = true
      · have hk : k ≠ key := fun hkk => h1 (hkk ▸ h2)
        have hf1 :
            List.find? (fun e => e.1 == k)
              (e :: tl.map (fun e => if e.1 == key then (e.1, v) else e)) =
            some e := List.find?_cons_of_pos _ h2
        have hf2 : List.find? (fun e => e.1 == k) (e :: tl) = some e :=
          List.find?_cons_of_pos _ h2
        rw [hf1, hf2, if_neg hk]
      · have hf1 :
            List.find? (fun e => e.1 == k)
              (e :: tl.map (fun e => if e.1 == key then (e.1, v) else e)) =
            List.find? (fun e => e.1 == k)
              (tl.map (fun e => if e.1 == key then (e.1, v) else e)) :=
          List.find?_cons_of_neg _ h2
        have hf2 :
            List.find? (fun e => e.1 == k) (e :: tl) =
            List.find? (fun e => e.1 == k) tl := List.find?_cons_of_neg _ h2
        rw [hf1, hf2]
        exact ih

/-- make-move rejects (no state change, no emission) when any guard in
the source's early-return chain fires. -/
lemma applyMove_reject (room : Room) (sockId : String) (index : Int)
    (h : room.status ≠ Status.playing ∨
         (room.players.get? room.currentPlayerIndex).map Player.id ≠ some sockId ∨
         index < 0 ∨ index > 8 ∨
         room.board.getD index.toNat none ≠ none) :
    applyMove room sockId index = (room, false) := by
  unfold applyMove
  split
  · rfl
  · next h1 =>
    split
    · rfl
    · next cp heq =>
      split
      · rfl
      · next h2 =>
        split
        · rfl
        · next h3 =>
          split
          · rfl
          · next h4 =>
            exfalso
            rcases h with h | h | h | h | h
            · exact h1 h
            · exact h (by rw [heq]; simpa using not_not.mp h2)
            · exact h3 (Or.inl h)
            · exact h3 (Or.inr h)
            · exact h4 h

/-- make-move on an accepted move that produces a non-draw winner: the
game ends, the mover's name is recorded and their score bumped. -/
lemma applyMove_win (room : Room) (sockId : String) (index : Int)
    (cp : Player) (s : String)
    (hst : room.status = Status.playing)
    (hcp : room.players.get? room.currentPlayerIndex = some cp)
    (hid : cp.id = sockId)
    (h0 : 0 ≤ index) (h8 : index ≤ 8)
    (hempty : room.board.getD index.toNat none = none)
    (hcw : checkWinner (room.board.set index.toNat (some cp.symbol.toStr)) = some s)
    (hs : s ≠ "Draw") :
    applyMove room sockId index =
      ({ room with
          board := room.board.set index.toNat (some cp.symbol.toStr)
          status := Status.ended
          winner := some cp.name
          scores := setScore room.scores cp.id
            (getScoreD room.scores cp.id + 1) }, true) := by
  unfold applyMove
  split
  · next h1 => exact absurd hst h1
  · next h1 =>
    split
    · next heq => rw [hcp] at heq; cases heq
    · next cp' heq =>
      rw [hcp] at heq
      cases heq
      split
      · next h2 => exact absurd hid h2
      · next h2 =>
        split
        · next h3 => exact absurd h3 (by omega)
        · next h3 =>
          split
          · next h4 => exact absurd hempty h4
          · next h4 =>
            dsimp only
            split
            · next w heq2 =>
              rw [hcw] at heq2
              cases heq2
              rw [if_neg (by simp [hs])]
            · next heq2 => rw [hcw] at heq2; cases heq2

/-- make-move on an accepted move after which checkWinner reports the
draw marker: the game ends with the draw outcome. -/
lemma applyMove_drawn (room : Room) (sockId : String) (index : Int)
    (cp : Player)
    (hst : room.status = Status.playing)
    (hcp : room.players.get? room.currentPlayerIndex = some cp)
    (hid : cp.id = sockId)
    (h0 : 0 ≤ index) (h8 : index ≤ 8)
    (hempty : room.board.getD index.toNat none = none)
    (hcw : checkWinner (room.board.set index.toNat (some cp.symbol.toStr)) =
      some "Draw") :
    applyMove room sockId index =
      ({ room with
          board := room.board.set index.toNat (some cp.symbol.toStr)
          status := Status.ended
          winner := some "Draw" }, true) := by
  unfold applyMove
  split
  · next h1 => exact absurd hst h1
  · next h1 =>
    split
    · next heq => rw [hcp] at heq; cases heq
    · next cp' heq =>
      rw [hcp] at heq
      cases heq
      split
      · next h2 => exact absurd hid h2
      · next h2 =>
        split
        · next h3 => exact absurd h3 (by omega)
        · next h3 =>
          split
          · next h4 => exact absurd hempty h4
          · next h4 =>
            dsimp only
            split
            · next w heq2 =>
              rw [hcw] at heq2
              cases heq2
              rw [if_pos (by simp)]
            · next heq2 => rw [hcw] at heq2; cases heq2

/-- make-move on an accepted move that neither wins nor fills the board:
only the cell is written and the turn pointer toggles. -/
lemma applyMove_continue (room : Room) (sockId : String) (index : Int)
    (cp : Player)
    (hst : room.status = Status.playing)
    (hcp : room.players.get? room.currentPlayerIndex = some cp)
    (hid : cp.id = sockId)
    (h0 : 0 ≤ index) (h8 : index ≤ 8)
    (hempty : room.board.getD index.toNat none = none)
    (hcw : checkWinner (room.board.set index.toNat (some cp.symbol.toStr)) = none) :
    applyMove room sockId index =
      ({ room with
          board := room.board.set index.toNat (some cp.symbol.toStr)
          currentPlayerIndex := 1 - room.currentPlayerIndex }, true) := by
  unfold applyMove
  split
  · next h1 => exact absurd hst h1
  · next h1 =>
    split
    · next heq => rw [hcp] at heq; cases heq
    · next cp' heq =>
      rw [hcp] at heq
      cases heq
      split
      · next h2 => exact absurd hid h2
      · next h2 =>
        split
        · next h3 => exact absurd h3 (by omega)
        · next h3 =>
          split
          · next h4 => exact absurd hempty h4
          · next h4 =>
            dsimp only
            split
            · next w heq2 => rw [hcw] at heq2; cases heq2
            · next heq2 => rfl

/-- Every outcome of make-move leaves the board alone or writes one
previously empty cell. -/
lemma applyMove_board (room : Room) (sockId : String) (index : Int) :
    (applyMove room sockId index).1.board = room.board ∨
    (room.board.getD index.toNat none = none ∧
     ∃ v, (applyMove room sockId index).1.board =
       room.board.set index.toNat v) := by
  unfold applyMove
  split
  · left; rfl
  · split
    · left; rfl
    · next cp heq =>
      split
      · left; rfl
      · split
        · left; rfl
        · next h3 =>
          split
          · left; rfl
          · next h4 =>
            dsimp only
            split
            · next w heq2 =>
              split
              · right; exact ⟨not_not.mp h4, _, rfl⟩
              · right; exact ⟨not_not.mp h4, _, rfl⟩
            · right; exact ⟨not_not.mp h4, _, rfl⟩

/-- A list of length two is literally a pair. -/
lemma players_len_two (l : List Player) (h : l.length = 2) :
    ∃ p1 p2, l = [p1, p2] := by
  cases l with
  | nil => simp at h
  | cons a t =>
    cases t with
    | nil => simp at h
    | cons b t2 =>
      cases t2 with
      | nil => exact ⟨a, b, rfl⟩
      | cons c t3 => simp at h

/-- Erasing a present element from a two-element list leaves one. -/
lemma eraseP_two_len (p1 p2 : Player) (pr : Player → Bool)
    (hm : ([p1, p2].any pr) = true) :
    ([p1, p2].eraseP pr).length = 1 := by
  by_cases b1 : pr p1 = true
  · simp [List.eraseP_cons, b1]
  · have b2 : pr p2 = true := by
      rcases List.any_eq_true.mp hm with ⟨x, hx, hpx⟩
      rcases List.mem_cons.mp hx with h | h
      · exact absurd (h ▸ hpx) b1
      · rcases List.mem_cons.mp h with h' | h'
        · exact h' ▸ hpx
        · simp at h'
    simp [List.eraseP_cons, b1, b2]

/-- disconnect acting on a two-member room: the room survives with the
matching player spliced out, status back to waiting, board and winner
cleared — and nothing else changed. -/
lemma departRoom_two (room : Room) (sockId : String)
    (h2 : room.players.length = 2)
    (hm : room.players.any (fun p => p.id == sockId) = true) :
    departRoom room sockId =
      some { room with
              players := room.players.eraseP (fun p => p.id == sockId)
              status := Status.waiting
              board := List.replicate 9 none
              winner := none } ∧
    (room.players.eraseP (fun p => p.id == sockId)).length = 1 := by
  have hlen : (room.players.eraseP (fun p => p.id == sockId)).length = 1 := by
    obtain ⟨p1, p2, hp⟩ := players_len_two room.players h2
    rw [hp]
    rw [hp] at hm
    exact eraseP_two_len p1 p2 _ hm
  refine ⟨?_, hlen⟩
  unfold departRoom
  rw [if_pos hm]
  dsimp only
  rw [if_neg (by rw [List.isEmpty_iff_length_eq_zero, hlen]; simp)]

/-! Key-precomputed forms of the handlers.  Each handler first derives
its storage key as roomName.toUpper; the K form takes the key as a
parameter and is definitionally equal to the original (the `_eq_K`
equations hold by rfl).  They let concrete traces evaluate by decide
after the single toUpper application is rewritten away, since
String.toUpper is defined by well-founded recursion and does not reduce
in the kernel. -/

/-- createRoom with its storage key precomputed. -/
def createRoomK (rooms : Rooms) (sockId key roomName playerName : String)
    (isPrivate : Bool) (password : Option String) : Rooms × List Event :=
  if (lookupRoom rooms key).isSome then
    (rooms, [Event.errorEv sockId "Room ID already exists"])
  else
    let room : Room :=
      { name := roomName
        players := [{ id := sockId, name := playerName, symbol := Symbol.X }]
        board := List.replicate 9 none
        currentPlayerIndex := 0
        password := if isPrivate then password else none
        isPrivate := isPrivate
        status := Status.waiting
        winner := none
        scores := [(sockId, 0)]
        resetVotes := [] }
    let rooms' := rooms ++ [(key, room)]
    (rooms', [Event.roomCreated sockId room, Event.roomListEv (getRoomList rooms')])

lemma createRoom_eq_K (rooms : Rooms) (sockId roomName playerName : String)
    (ip : Bool) (pw : Option String) :
    createRoom rooms sockId roomName playerName ip pw =
    createRoomK rooms sockId roomName.toUpper roomName playerName ip pw := rfl

/-- joinRoom with its storage key precomputed. -/
def joinRoomK (rooms : Rooms) (sockId key playerName : String)
    (password : Option String) (isLinkJoin : Bool) : Rooms × List Event :=
  match lookupRoom rooms key with
  | none => (rooms, [Event.errorEv sockId "Room ID not found"])
  | some room =>
    if 2 ≤ room.players.length then
      (rooms, [Event.errorEv sockId "Room is full"])
    else if isLinkJoin = false ∧ room.isPrivate = true ∧ room.password ≠ password then
      (rooms, [Event.errorEv sockId "Incorrect password"])
    else
      let player : Player :=
        { id := sockId, name := playerName
          symbol := if room.players.length == 0 then Symbol.X else Symbol.O }
      let joined : Room :=
        { room with players := room.players ++ [player]
                    scores := setScore room.scores sockId 0 }
      let room' : Room :=
        if joined.players.length == 2 then { joined with status := Status.playing }
        else joined
      let rooms' := updateRoom rooms key room'
      (rooms', [Event.roomUpdated key room', Event.roomListEv (getRoomList rooms')])

lemma joinRoom_eq_K (rooms : Rooms) (sockId roomId playerName : String)
    (pw : Option String) (lj : Bool) :
    joinRoom rooms sockId roomId playerName pw lj =
    joinRoomK rooms sockId roomId.toUpper playerName pw lj := rfl

/-- resetGame with its storage key precomputed. -/
def resetGameK (rooms : Rooms) (sockId key : String) : Rooms × List Event :=
  match lookupRoom rooms key with
  | none => (rooms, [])
  | some room =>
    let room' := resetRoomVote room sockId
    (updateRoom rooms key room', [Event.roomUpdated key room'])

lemma resetGame_eq_K (rooms : Rooms) (sockId roomId : String) :
    resetGame rooms sockId roomId = resetGameK rooms sockId roomId.toUpper := rfl

/-- makeMove with its storage key precomputed. -/
def makeMoveK (rooms : Rooms) (sockId key : String) (index : Int) :
    Rooms × List Event :=
  match lookupRoom rooms key with
  | none => (rooms, [])
  | some room =>
    match applyMove room sockId index with
    | (_, false) => (rooms, [])
    | (room', true) =>
      (updateRoom rooms key room', [Event.roomUpdated key room'])

lemma makeMove_eq_K (rooms : Rooms) (sockId roomId : String) (index : Int) :
    makeMove rooms sockId roomId index = makeMoveK rooms sockId roomId.toUpper index :=
  rfl

/-- Evaluation of String.toUpper on the concrete names used below
(String.toUpper itself is opaque to kernel reduction, so these go
through the Batteries characterization of String.map). -/
lemma toUpper_GAME : ("GAME" : String).toUpper = "GAME" := by
  show String.map Char.toUpper "GAME" = "GAME"
  rw [String.map_eq]
  decide

lemma toUpper_AB : ("AB" : String).toUpper = "AB" := by
  show String.map Char.toUpper "AB" = "AB"
  rw [String.map_eq]
  decide

lemma toUpper_ab_low : ("ab" : String).toUpper = "AB" := by
  show String.map Char.toUpper "ab" = "AB"
  rw [String.map_eq]
  decide

/-! Claim theorems. -/

/-- Claim C2: on an accepted move (status playing, correct turn, index
in range, empty target cell, cells well-formed, no prior outcome), if
the resulting board has a winning line then status becomes ended with
the acting player's display name as the outcome and that player's score
bumped by exactly one; if no line is won and the board is full the
outcome is the draw marker; otherwise status stays playing and the
outcome stays empty. -/
theorem C2_theorem (room : Room) (sockId : String) (index : Int) (cp : Player)
    (hwf : ∀ c ∈ room.board, c = none ∨ c = some "X" ∨ c = some "O")
    (hst : room.status = Status.playing)
    (hcp : room.players.get? room.currentPlayerIndex = some cp)
    (hid : cp.id = sockId)
    (h0 : 0 ≤ index) (h8 : index ≤ 8)
    (hempty : room.board.getD index.toNat none = none)
    (hwin : room.winner = none) :
    ((∃ t ∈ lines,
        lineWin (room.board.set index.toNat (some cp.symbol.toStr)) t = true) →
      (applyMove room sockId index).1.status = Status.ended ∧
      (applyMove room sockId index).1.winner = some cp.name ∧
      getScoreD (applyMove room sockId index).1.scores cp.id =
        getScoreD room.scores cp.id + 1) ∧
    ((∀ t ∈ lines,
        lineWin (room.board.set index.toNat (some cp.symbol.toStr)) t = false) →
      ((room.board.set index.toNat (some cp.symbol.toStr)).all
          (fun c => c.isSome)) = true →
      (applyMove room sockId index).1.status = Status.ended ∧
      (applyMove room sockId index).1.winner = some "Draw") ∧
    ((∀ t ∈ lines,
        lineWin (room.board.set index.toNat (some cp.symbol.toStr)) t = false) →
      ((room.board.set index.toNat (some cp.symbol.toStr)).all
          (fun c => c.isSome)) = false →
      (applyMove room sockId index).1.status = Status.playing ∧
      (applyMove room sockId index).1.winner = none) := by
  have hwf' : ∀ c ∈ room.board.set index.toNat (some cp.symbol.toStr),
      c = none ∨ c = some "X" ∨ c = some "O" := by
    intro c hc
    rcases List.mem_or_eq_of_mem_set hc with h | h
    · exact hwf c h
    · have hsym : cp.symbol.toStr = "X" ∨ cp.symbol.toStr = "O" := by
        cases cp.symbol <;> simp [Symbol.toStr]
      subst h
      rcases hsym with h' | h' <;> rw [h'] <;> simp
  refine ⟨?_, ?_, ?_⟩
  · intro hex
    obtain ⟨s, hcw, hs⟩ := checkWinner_of_win _ hwf' hex
    rw [applyMove_win room sockId index cp s hst hcp hid h0 h8 hempty hcw hs]
    exact ⟨rfl, rfl, getScoreD_setScore _ _ _⟩
  · intro hnw hfull
    have hcw := checkWinner_draw _ hnw hfull
    rw [applyMove_drawn room sockId index cp hst hcp hid h0 h8 hempty hcw]
    exact ⟨rfl, rfl⟩
  · intro hnw hnfull
    have hcw := checkWinner_undecided _ hnw hnfull
    rw [applyMove_continue room sockId index cp hst hcp hid h0 h8 hempty hcw]
    exact ⟨hst, hwin⟩

/-- Concrete two-player mid-game room used to instantiate theorems. -/
def roomW2 : Room :=
  { name := "GAME"
    players := [{ id := "a", name := "Alice", symbol := Symbol.X },
                { id := "b", name := "Bob", symbol := Symbol.O }]
    board := [some "X", some "X", none, some "O", some "O", none, none, none, none]
    currentPlayerIndex := 0
    password := none
    isPrivate := false
    status := Status.playing
    winner := none
    scores := [("a", 0), ("b", 0)]
    resetVotes := [] }

/-- Witness for C2: Alice completes the top row at cell 2 and wins. -/
theorem C2_witness :
    (applyMove roomW2 "a" 2).1.status = Status.ended ∧
    (applyMove roomW2 "a" 2).1.winner = some "Alice" ∧
    getScoreD (applyMove roomW2 "a" 2).1.scores "a" =
      getScoreD roomW2.scores "a" + 1 :=
  (C2_theorem roomW2 "a" 2
    { id := "a", name := "Alice", symbol := Symbol.X }
    (by decide) rfl rfl rfl (by decide) (by decide) rfl rfl).1 (by decide)

/-- Claim C3: a non-empty board cell is never changed by make-move; a
move against a non-playing room, out of turn, with an out-of-range
index, or onto an occupied cell leaves the room unchanged with nothing
emitted; a reset vote below the threshold leaves the board alone; and
join-room never changes any stored room's board. -/
theorem C3_theorem (room : Room) (sockId : String) (index : Int) :
    (∀ j : Nat, room.board.getD j none ≠ none →
      (applyMove room sockId index).1.board.getD j none =
        room.board.getD j none) ∧
    (room.status ≠ Status.playing → applyMove room sockId index = (room, false)) ∧
    ((room.players.get? room.currentPlayerIndex).map Player.id ≠ some sockId →
      applyMove room sockId index = (room, false)) ∧
    (index < 0 ∨ index > 8 → applyMove room sockId index = (room, false)) ∧
    (room.board.getD index.toNat none ≠ none →
      applyMove room sockId index = (room, false)) ∧
    (∀ vid : String,
      (if room.resetVotes.contains vid then room.resetVotes
       else room.resetVotes ++ [vid]).length < room.players.length →
      (resetRoomVote room vid).board = room.board) ∧
    (∀ (rooms : Rooms) (rid pn : String) (pw : Option String) (lj : Bool)
        (k : String) (r' : Room),
      lookupRoom (joinRoom rooms sockId rid pn pw lj).1 k = some r' →
      ∃ r0, lookupRoom rooms k = some r0 ∧ r'.board = r0.board) := by
  refine ⟨?_, ?_, ?_, ?_, ?_, ?_, ?_⟩
  · rcases applyMove_board room sockId index with h | ⟨hcell, v, hb⟩
    · intro j hj; rw [h]
    · intro j hj
      rw [hb]
      by_cases hji : index.toNat = j
      · exact absurd (hji ▸ hcell) hj
      · rw [List.getD_eq_getElem?_getD, List.getElem?_set_ne hji,
          ← List.getD_eq_getElem?_getD]
  · intro h; exact applyMove_reject _ _ _ (Or.inl h)
  · intro h; exact applyMove_reject _ _ _ (Or.inr (Or.inl h))
  · intro h
    rcases h with h | h
    · exact applyMove_reject _ _ _ (Or.inr (Or.inr (Or.inl h)))
    · exact applyMove_reject _ _ _ (Or.inr (Or.inr (Or.inr (Or.inl h))))
  · intro h; exact applyMove_reject _ _ _ (Or.inr (Or.inr (Or.inr (Or.inr h))))
  · intro vid hlt
    unfold resetRoomVote
    dsimp only
    rw [if_neg (by omega)]
  · intro rooms rid pn pw lj k r' h
    unfold joinRoom at h
    dsimp only at h
    cases hl : lookupRoom rooms rid.toUpper with
    | none =>
      rw [hl] at h
      dsimp only at h
      exact ⟨r', h, rfl⟩
    | some room0 =>
      rw [hl] at h
      dsimp only at h
      by_cases hfull : 2 ≤ room0.players.length
      · rw [if_pos hfull] at h
        exact ⟨r', h, rfl⟩
      · rw [if_neg hfull] at h
        by_cases hpw : lj = false ∧ room0.isPrivate = true ∧ room0.password ≠ pw
        · rw [if_pos hpw] at h
          exact ⟨r', h, rfl⟩
        · rw [if_neg hpw] at h
          dsimp only at h
          rw [lookupRoom_update] at h
          by_cases hk : k = rid.toUpper
          · rw [if_pos hk] at h
            cases hl0 : lookupRoom rooms k with
            | none => rw [hl0] at h; simp at h
            | some r0 =>
              rw [hl0] at h
              simp only [Option.map_some'] at h
              refine ⟨r0, rfl, ?_⟩
              have hr0 : r0 = room0 := by
                rw [hk] at hl0
                rw [hl0] at hl
                exact Option.some_inj.mp hl
              rw [← Option.some_inj.mp h, hr0]
              by_cases hl2 : ((room0.players ++
                  [{ id := sockId, name := pn
                     symbol := if room0.players.length == 0 then Symbol.X
                               else Symbol.O : Player }]).length == 2) = true
              · rw [if_pos hl2]
              · rw [if_neg hl2]
          · rw [if_neg hk] at h
            exact ⟨r', h, rfl⟩

/-- Witness for C3: occupied cells 0 and 3 of the concrete room reject
and preserve; an undervoted reset keeps the board; joining a full room
keeps every stored board. -/
theorem C3_witness :
    (applyMove roomW2 "a" 0).1.board.getD 0 none = roomW2.board.getD 0 none ∧
    applyMove roomW2 "a" 3 = (roomW2, false) ∧
    (resetRoomVote roomW2 "z").board = roomW2.board ∧
    (∃ r0, lookupRoom [("GAME", roomW2)] "GAME" = some r0 ∧
      roomW2.board = r0.board) :=
  ⟨(C3_theorem roomW2 "a" 0).1 0 (by decide),
   (C3_theorem roomW2 "a" 3).2.2.2.2.1 (by decide),
   (C3_theorem roomW2 "a" 0).2.2.2.2.2.1 "z" (by decide),
   (C3_theorem roomW2 "a" 0).2.2.2.2.2.2 [("GAME", roomW2)] "GAME" "Carol"
     none false "GAME" roomW2 (by rw [joinRoom_eq_K, toUpper_GAME]; decide)⟩

/-- Concrete one-member private room (stored secret "pw"). -/
def roomP : Room :=
  { name := "AB"
    players := [{ id := "s1", name := "Alice", symbol := Symbol.X }]
    board := List.replicate 9 none
    currentPlayerIndex := 0
    password := some "pw"
    isPrivate := true
    status := Status.waiting
    winner := none
    scores := [("s1", 0)]
    resetVotes := [] }

/-- Claim C1 fails on the code: the room-created snapshot of a private
room carries the stored secret in its password field. -/
theorem C1_counterexample :
    (createRoom [] "s1" "AB" "Alice" true (some "pw")).2.head?.bind eventPassword =
      some (some "pw") := rfl

/-- Claim C1 (amended): outbound snapshots are the raw Room record, so
for private rooms the stored secret is included: the room-created
payload carries the creation secret and the room-updated payload of a
link join carries the stored password field unchanged. -/
theorem C1_theorem :
    (∀ (rooms : Rooms) (sockId roomName playerName : String) (pw : Option String),
      lookupRoom rooms roomName.toUpper = none →
      (createRoom rooms sockId roomName playerName true pw).2.head?.bind
        eventPassword = some pw) ∧
    (∀ (rooms : Rooms) (sockId roomId playerName : String) (pw : Option String)
        (room : Room),
      lookupRoom rooms roomId.toUpper = some room →
      room.players.length < 2 →
      (joinRoom rooms sockId roomId playerName pw true).2.head?.bind
        eventPassword = some room.password) := by
  constructor
  · intro rooms sockId roomName playerName pw h
    unfold createRoom
    dsimp only
    rw [if_neg (by rw [h]; simp)]
    rfl
  · intro rooms sockId roomId playerName pw room hlk hlen
    unfold joinRoom
    dsimp only
    rw [hlk]
    dsimp only
    rw [if_neg (by omega)]
    rw [if_neg (by simp)]
    dsimp only
    by_cases h2 : ((room.players ++
        [{ id := sockId, name := playerName
           symbol := if room.players.length == 0 then Symbol.X
                     else Symbol.O : Player }]).length == 2) = true
    · rw [if_pos h2]
      rfl
    · rw [if_neg h2]
      rfl

/-- Witness for the amended C1 at concrete inputs: a private creation
and a link join both leak the stored secret in the emitted snapshot. -/
theorem C1_witness :
    lookupRoom ([] : Rooms) ("AB".toUpper) = none ∧
    (createRoom [] "s1" "AB" "Alice" true (some "pw")).2.head?.bind eventPassword =
      some (some "pw") ∧
    (joinRoom [("AB", roomP)] "s2" "AB" "Bob" none true).2.head?.bind
      eventPassword = some roomP.password :=
  ⟨rfl,
   C1_theorem.1 [] "s1" "AB" "Alice" (some "pw") rfl,
   C1_theorem.2 [("AB", roomP)] "s2" "AB" "Bob" none roomP
     (by rw [toUpper_AB]; decide) (by decide)⟩

/-- Claim C4 fails on the code: a join of a private room carrying no
secret at all is rejected with the single "Incorrect password" error,
not with a distinct "Password required" error. -/
theorem C4_counterexample :
    (joinRoom [("AB", roomP)] "s2" "AB" "Bob" none false).1 = [("AB", roomP)] ∧
    (joinRoom [("AB", roomP)] "s2" "AB" "Bob" none false).2 =
      [Event.errorEv "s2" "Incorrect password"] ∧
    ("Incorrect password" : String) ≠ "Password required" := by
  rw [joinRoom_eq_K, toUpper_AB]
  exact ⟨by decide, by decide, by decide⟩

/-- Claim C4 (amended): a non-link join of a non-full private room whose
supplied secret (possibly absent) differs from the stored one always
fails with the single "Incorrect password" error and leaves the store
unchanged; missing and mismatching secrets are not distinguished. -/
theorem C4_theorem (rooms : Rooms) (sockId roomId playerName : String)
    (pw : Option String) (room : Room)
    (hlk : lookupRoom rooms roomId.toUpper = some room)
    (hpriv : room.isPrivate = true)
    (hnf : room.players.length < 2)
    (hne : room.password ≠ pw) :
    joinRoom rooms sockId roomId playerName pw false =
      (rooms, [Event.errorEv sockId "Incorrect password"]) := by
  unfold joinRoom
  dsimp only
  rw [hlk]
  dsimp only
  rw [if_neg (by omega)]
  rw [if_pos ⟨rfl, hpriv, hne⟩]

/-- Witness for the amended C4: the concrete private room rejects a
missing secret with "Incorrect password" and is left unchanged. -/
theorem C4_witness :
    lookupRoom [("AB", roomP)] ("AB".toUpper) = some roomP ∧
    joinRoom [("AB", roomP)] "s2" "AB" "Bob" none false =
      ([("AB", roomP)], [Event.errorEv "s2" "Incorrect password"]) :=
  ⟨by rw [toUpper_AB]; decide,
   C4_theorem [("AB", roomP)] "s2" "AB" "Bob" none roomP
     (by rw [toUpper_AB]; decide) rfl (by decide) (by decide)⟩

/-- Concrete two-member room whose turn pointer is at index 1. -/
def roomC5 : Room :=
  { roomW2 with currentPlayerIndex := 1 }

/-- Claim C5 fails on the code: after one of two members departs, the
turn pointer keeps its old value instead of being reset to index 0. -/
theorem C5_counterexample :
    roomC5.players.length = 2 ∧
    (departRoom roomC5 "a").map Room.currentPlayerIndex = some 1 := by decide

/-- Claim C5 (amended): a departure from a two-member room leaves the
room in place with status waiting, a cleared board and a cleared
outcome; the turn pointer retains its previous value rather than being
reset. -/
theorem C5_theorem (room : Room) (sockId : String)
    (h2 : room.players.length = 2)
    (hm : room.players.any (fun p => p.id == sockId) = true) :
    ∃ room', departRoom room sockId = some room' ∧
      room'.status = Status.waiting ∧
      room'.board = List.replicate 9 none ∧
      room'.winner = none ∧
      room'.currentPlayerIndex = room.currentPlayerIndex := by
  obtain ⟨hd, _⟩ := departRoom_two room sockId h2 hm
  exact ⟨_, hd, rfl, rfl, rfl, rfl⟩

/-- Witness for the amended C5 at the concrete room with pointer 1. -/
theorem C5_witness :
    roomC5.players.length = 2 ∧
    ∃ room', departRoom roomC5 "a" = some room' ∧
      room'.status = Status.waiting ∧
      room'.board = List.replicate 9 none ∧
      room'.winner = none ∧
      room'.currentPlayerIndex = roomC5.currentPlayerIndex :=
  ⟨by decide, C5_theorem roomC5 "a" (by decide) (by decide)⟩

/-- Claim C6 fails on the code: a reset vote from a connection that is
not a member of the room is recorded rather than ignored, changing the
room state. -/
theorem C6_counterexample :
    (roomW2.players.any (fun p => p.id == "z")) = false ∧
    resetRoomVote roomW2 "z" ≠ roomW2 ∧
    (resetRoomVote roomW2 "z").resetVotes = ["z"] := by decide

/-- Claim C6 (amended): reset-game never checks membership: a vote from
any connection not yet in the consent set is appended and counts toward
the threshold (triggering the full reset when the count reaches the
member count), and the handler emits a room-updated snapshot — never an
error. -/
theorem C6_theorem (room : Room) (sockId : String)
    (hnv : room.resetVotes.contains sockId = false) :
    (room.players.length ≤ room.resetVotes.length + 1 →
      resetRoomVote room sockId =
        { room with board := List.replicate 9 none
                    status := Status.playing
                    currentPlayerIndex := 0
                    winner := none
                    resetVotes := [] }) ∧
    (room.resetVotes.length + 1 < room.players.length →
      resetRoomVote room sockId =
        { room with resetVotes := room.resetVotes ++ [sockId] }) ∧
    (∀ (rooms : Rooms) (roomId : String) (r : Room),
      lookupRoom rooms roomId.toUpper = some r →
      (resetGame rooms sockId roomId).2 =
        [Event.roomUpdated roomId.toUpper (resetRoomVote r sockId)]) := by
  have hv : (if room.resetVotes.contains sockId = true then room.resetVotes
             else room.resetVotes ++ [sockId]) = room.resetVotes ++ [sockId] :=
    if_neg (by rw [hnv]; simp)
  refine ⟨?_, ?_, ?_⟩
  · intro h
    unfold resetRoomVote
    dsimp only
    rw [hv]
    have hc : room.players.length ≤ (room.resetVotes ++ [sockId]).length := by
      simpa using h
    rw [if_pos hc]
  · intro h
    unfold resetRoomVote
    dsimp only
    rw [hv]
    have hc : ¬room.players.length ≤ (room.resetVotes ++ [sockId]).length := by
      simp only [List.length_append, List.length_cons, List.length_nil]
      omega
    rw [if_neg hc]
  · intro rooms roomId r hlk
    unfold resetGame
    dsimp only
    rw [hlk]

/-- Witness for the amended C6: the non-member "z" has their vote
appended to the concrete room, and the handler emits a snapshot. -/
theorem C6_witness :
    roomW2.resetVotes.contains "z" = false ∧
    resetRoomVote roomW2 "z" = { roomW2 with resetVotes := ["z"] } ∧
    (resetGame [("GAME", roomW2)] "z" "GAME").2 =
      [Event.roomUpdated ("GAME".toUpper) (resetRoomVote roomW2 "z")] :=
  ⟨by decide,
   (C6_theorem roomW2 "z" (by decide)).2.1 (by decide),
   (C6_theorem roomW2 "z" (by decide)).2.2 [("GAME", roomW2)] "GAME" roomW2
     (by rw [toUpper_GAME]; decide)⟩

/-- Claim C7 fails on the code: a reachable state (create, join, then a
single reset vote) has status playing with a non-empty consent set. -/
theorem C7_counterexample :
    (lookupRoom (run [Op.create "a" "AB" "Alice" false none,
                      Op.join "b" "AB" "Bob" none false,
                      Op.vote "a" "AB"]) "AB").map
        (fun r => (r.status, r.resetVotes)) = some (Status.playing, ["a"]) ∧
    Status.playing ≠ Status.ended := by
  constructor
  · simp only [run, List.foldl, applyOp, createRoom_eq_K, joinRoom_eq_K,
      resetGame_eq_K]
    rw [toUpper_AB]
    decide
  · decide

/-- The room state reached by create, join and one reset vote. -/
def roomC7 : Room :=
  { name := "GAME"
    players := [{ id := "a", name := "Alice", symbol := Symbol.X },
                { id := "b", name := "Bob", symbol := Symbol.O }]
    board := List.replicate 9 none
    currentPlayerIndex := 0
    password := none
    isPrivate := false
    status := Status.playing
    winner := none
    scores := [("a", 0), ("b", 0)]
    resetVotes := ["b"] }

/-- Claim C7 (amended): the consent set is empty at room creation and is
emptied whenever a completed reset fires, but a recorded vote persists
regardless of status, so reachable states exist whose status is playing
while the consent set is non-empty. -/
theorem C7_theorem :
    (∀ (rooms : Rooms) (sockId roomName playerName : String) (ip : Bool)
        (pw : Option String),
      lookupRoom rooms roomName.toUpper = none →
      ∃ room, lookupRoom (createRoom rooms sockId roomName playerName ip pw).1
          roomName.toUpper = some room ∧ room.resetVotes = []) ∧
    (∀ (room : Room) (sockId : String),
      room.players.length ≤
        (if room.resetVotes.contains sockId then room.resetVotes
         else room.resetVotes ++ [sockId]).length →
      (resetRoomVote room sockId).resetVotes = []) ∧
    (∃ r, lookupRoom (run [Op.create "a" "GAME" "Alice" false none,
                           Op.join "b" "GAME" "Bob" none false,
                           Op.vote "b" "GAME"]) "GAME" = some r ∧
      r.status = Status.playing ∧ r.resetVotes ≠ []) := by
  refine ⟨?_, ?_, ?_⟩
  · intro rooms sockId roomName playerName ip pw h
    unfold createRoom
    dsimp only
    rw [if_neg (by rw [h]; simp)]
    dsimp only
    exact ⟨_, lookupRoom_append_self rooms _ _ h, rfl⟩
  · intro room sockId h
    unfold resetRoomVote
    dsimp only
    rw [if_pos h]
  · simp only [run, List.foldl, applyOp, createRoom_eq_K, joinRoom_eq_K,
      resetGame_eq_K]
    rw [toUpper_GAME]
    exact ⟨roomC7, by decide, rfl, by decide⟩

/-- Witness for the amended C7: a fresh creation has an empty consent
set, and a threshold-reaching vote empties it. -/
theorem C7_witness :
    lookupRoom ([] : Rooms) ("GAME".toUpper) = none ∧
    (∃ room, lookupRoom (createRoom [] "a" "GAME" "Alice" false none).1
        ("GAME".toUpper) = some room ∧ room.resetVotes = []) ∧
    (resetRoomVote { roomW2 with status := Status.ended, resetVotes := ["a"] }
        "b").resetVotes = [] :=
  ⟨rfl,
   C7_theorem.1 [] "a" "GAME" "Alice" false none rfl,
   C7_theorem.2.1 { roomW2 with status := Status.ended, resetVotes := ["a"] } "b"
     (by decide)⟩

/-- Claim C8 names a code bug: after the trace create("a" as Alice),
join("b" as Bob), disconnect of "a", join("c" as Carol), the surviving
room holds two members whose symbols are both O — the first member does
not hold X and the two members share a symbol, because join-room assigns
X only to a joiner of an empty room, which cannot occur. -/
theorem C8_theorem :
    (lookupRoom (run [Op.create "a" "AB" "Alice" false none,
                      Op.join "b" "AB" "Bob" none false,
                      Op.leave "a",
                      Op.join "c" "AB" "Carol" none false]) "AB").map
        (fun r => r.players.map Player.symbol) = some [Symbol.O, Symbol.O] := by
  simp only [run, List.foldl, applyOp, createRoom_eq_K, joinRoom_eq_K,
    resetGame_eq_K]
  rw [toUpper_AB]
  decide

/-- Claim C9 fails on the code: creating a room under a lowercase name
stores it under the uppercase key but keeps the lowercase string as the
room's display name. -/
theorem C9_counterexample :
    (lookupRoom (createRoom [] "s1" "ab" "Alice" false none).1 "AB").map
      Room.name = some "ab" ∧
    ("ab" : String) ≠ "AB" := by
  constructor
  · rw [createRoom_eq_K, toUpper_ab_low]
    decide
  · decide

/-- Claim C9 (amended): the client-supplied name is uppercased for the
storage and lookup key on create, join and link join (so two names that
differ only in casing address the same room), but the stored display
name — hence the snapshot's name field — keeps the client's original
casing. -/
theorem C9_theorem :
    (∀ (rooms : Rooms) (sockId roomName playerName : String) (ip : Bool)
        (pw : Option String),
      lookupRoom rooms roomName.toUpper = none →
      ∃ room, lookupRoom (createRoom rooms sockId roomName playerName ip pw).1
          roomName.toUpper = some room ∧ room.name = roomName) ∧
    (∀ (rooms : Rooms) (sockId id1 id2 playerName : String) (pw : Option String)
        (lj : Bool),
      id1.toUpper = id2.toUpper →
      joinRoom rooms sockId id1 playerName pw lj =
        joinRoom rooms sockId id2 playerName pw lj) := by
  constructor
  · intro rooms sockId roomName playerName ip pw h
    unfold createRoom
    dsimp only
    rw [if_neg (by rw [h]; simp)]
    dsimp only
    exact ⟨_, lookupRoom_append_self rooms _ _ h, rfl⟩
  · intro rooms sockId id1 id2 playerName pw lj h
    rw [joinRoom_eq_K, joinRoom_eq_K, h]

/-- Witness for the amended C9: the lowercase creation is found under
the uppercase key with its lowercase display name, and joining by "ab"
or "AB" is the same operation. -/
theorem C9_witness :
    lookupRoom ([] : Rooms) ("ab".toUpper) = none ∧
    (∃ room, lookupRoom (createRoom [] "s1" "ab" "Alice" false none).1
        ("ab".toUpper) = some room ∧ room.name = "ab") ∧
    joinRoom [("AB", roomP)] "s2" "ab" "Bob" (some "pw") false =
      joinRoom [("AB", roomP)] "s2" "AB" "Bob" (some "pw") false :=
  ⟨rfl,
   C9_theorem.1 [] "s1" "ab" "Alice" false none rfl,
   C9_theorem.2 [("AB", roomP)] "s2" "ab" "AB" "Bob" (some "pw") false
     (by rw [toUpper_ab_low, toUpper_AB])⟩

/-- Claim C10: a departure from a two-member room removes exactly the
departing player's record; the departed connection's score entry and any
reset vote it cast persist in the surviving room. -/
theorem C10_theorem (room : Room) (sockId : String)
    (h2 : room.players.length = 2)
    (hm : room.players.any (fun p => p.id == sockId) = true) :
    ∃ room', departRoom room sockId = some room' ∧
      room'.players = room.players.eraseP (fun p => p.id == sockId) ∧
      room'.players.length = 1 ∧
      room'.scores = room.scores ∧
      room'.resetVotes = room.resetVotes := by
  obtain ⟨hd, hlen⟩ := departRoom_two room sockId h2 hm
  exact ⟨_, hd, rfl, hlen, rfl, rfl⟩

/-- Concluded two-member room with recorded scores and a vote by "a". -/
def roomC10 : Room :=
  { roomW2 with
      status := Status.ended
      resetVotes := ["a"]
      scores := [("a", 3), ("b", 1)] }

/-- Witness for C10: the departure of "a" from a concluded room with a
recorded vote keeps the score entry of "a" and the vote of "a". -/
theorem C10_witness :
    roomC10.players.length = 2 ∧
    ∃ room', departRoom roomC10 "a" = some room' ∧
      room'.players = roomC10.players.eraseP (fun p => p.id == "a") ∧
      room'.players.length = 1 ∧
      room'.scores = [("a", 3), ("b", 1)] ∧
      room'.resetVotes = ["a"] :=
  ⟨by decide, C10_theorem roomC10 "a" (by decide) (by decide)⟩

end TicTacToe
